import Mathlib

set_option maxRecDepth 10000

/-!
Verification of the `caseless` crate: the streaming case-fold transform
(`CaseFold`), the `iter_eq` comparison primitive, the default / canonical /
compatibility caseless matching functions, and the table-construction logic
of `build.rs`, shallowly embedded over lists of Unicode code points
(represented as `Nat`).
-/

namespace Caseless

/-- A case-folding table entry as stored in the generated
`CASE_FOLDING_TABLE : &[(char, [char; 3])]`: the source code point followed
by its replacement sequence padded to three slots with `'\0'` (here `0`). -/
abbrev FoldTable := List (Nat × Nat × Nat × Nat)

/-- One step of `slice::binary_search_by` as invoked from `CaseFold::next`,
searching for the source code point `c` in the half-open index interval
`[left, right)` of table `t`. The comparator is `x.cmp(&c)`, so `Less`
means `x < c`. `fuel` bounds the number of loop iterations; the interval
shrinks at every step, so `t.length + 1` always suffices. -/
def binarySearchLoop (t : FoldTable) (c : Nat) : Nat → Nat → Nat → Option Nat
  | 0, _, _ => none
  | fuel + 1, left, right =>
    if left < right then
      let mid := left + (right - left) / 2
      let x := (t.getD mid (0, 0, 0, 0)).1
      if x < c then binarySearchLoop t c fuel (mid + 1) right
      else if c < x then binarySearchLoop t c fuel left mid
      else some mid
    else none

/-- Rust `t.binary_search_by(|&(x, _)| x.cmp(&c))`, returning the index of the
entry whose source code point is `c`, or `none` when `c` is unmapped. -/
def binarySearchTable (t : FoldTable) (c : Nat) : Option Nat :=
  binarySearchLoop t c (t.length + 1) 0 t.length

/-- The `CaseFold` iterator state from `lib.rs`: the upstream char iterator
(modelled by the list of code points it has yet to yield) and the two-slot
pending queue `queue: [char; 2]`, with `0` (NUL) as the empty-slot
sentinel. -/
structure CaseFold where
  chars : List Nat
  queue0 : Nat
  queue1 : Nat
deriving DecidableEq

/-- Rust `CaseFold::next` over fold table `t`: if the queue head is non-NUL, pop
and return it (shifting slot 1 forward and clearing it); otherwise pull one
code point from upstream, binary-search it in the table, and either pass it
through unchanged (not found) or return the first replacement code point
after loading replacement slots 2 and 3 into the queue. -/
def CaseFold.next (t : FoldTable) (s : CaseFold) : Option (Nat × CaseFold) :=
  if s.queue0 ≠ 0 then
    some (s.queue0, ⟨s.chars, s.queue1, 0⟩)
  else
    match s.chars with
    | [] => none
    | c :: rest =>
      match binarySearchTable t c with
      | none => some (c, ⟨rest, s.queue0, s.queue1⟩)
      | some i =>
        let folded := (t.getD i (0, 0, 0, 0)).2
        some (folded.1, ⟨rest, folded.2.1, folded.2.2⟩)

/-- The number of pending code points denoted by the NUL-sentinel encoding
of the queue; this is exactly the `queue_len` decoding performed by
`CaseFold::size_hint`. -/
def CaseFold.queueLen (s : CaseFold) : Nat :=
  if s.queue0 = 0 then 0 else if s.queue1 = 0 then 1 else 2

/-- Termination measure for driving the iterator: every `next` call that
yields an item strictly decreases it. -/
def CaseFold.measure (s : CaseFold) : Nat :=
  3 * s.chars.length + s.queueLen

/-- Fuel-bounded unfolding of the iterator. -/
def CaseFold.collectFuel (t : FoldTable) : Nat → CaseFold → List Nat
  | 0, _ => []
  | fuel + 1, s =>
    match CaseFold.next t s with
    | none => []
    | some (x, s') => x :: CaseFold.collectFuel t fuel s'

/-- Driving the `CaseFold` iterator to exhaustion (`Iterator::collect`);
`measure + 1` fuel always reaches exhaustion. -/
def CaseFold.collect (t : FoldTable) (s : CaseFold) : List Nat :=
  CaseFold.collectFuel t (s.measure + 1) s

/-- Rust `Caseless::default_case_fold`: wrap an upstream iterator in a `CaseFold`
with an empty (all-NUL) queue. -/
def default_case_fold (chars : List Nat) : CaseFold :=
  ⟨chars, 0, 0⟩

/-- The fully case-folded stream of `l` under table `t`. -/
def caseFoldList (t : FoldTable) (l : List Nat) : List Nat :=
  CaseFold.collect t (default_case_fold l)

/-- The nonzero prefix of the two queue slots: the code points the queue
encoding `(q0, q1)` actually holds. -/
def queueItems (q0 q1 : Nat) : List Nat :=
  if q0 = 0 then [] else if q1 = 0 then [q0] else [q0, q1]

/-- The per-code-point default case fold read off the table: the looked-up
replacement slots up to the first NUL padding slot, or the code point itself
when it is unmapped. Concatenating `scalarFold` over an input stream is the
full default case folding of that stream. -/
def scalarFold (t : FoldTable) (c : Nat) : List Nat :=
  match binarySearchTable t c with
  | none => [c]
  | some i =>
    let folded := (t.getD i (0, 0, 0, 0)).2
    folded.1 :: queueItems folded.2.1 folded.2.2

/-- Rust `iter_eq` from `lib.rs`, on the materialised streams: it matches on the
pair of pulls — both exhausted gives `true`, exactly one exhausted gives
`false`, and a mismatching pair gives `false`. -/
def iter_eq : List Nat → List Nat → Bool
  | [], [] => true
  | [], _ :: _ => false
  | _ :: _, [] => false
  | x :: xs, y :: ys => if x = y then iter_eq xs ys else false

/-- Rust `Caseless::default_caseless_match`: compare the two case-folded streams
with `iter_eq`. -/
def default_caseless_match (t : FoldTable) (a b : List Nat) : Bool :=
  iter_eq (caseFoldList t a) (caseFoldList t b)

/-- Modelled from the spec: the canonical decomposition mapping of the
external Decomposition Mapping provider (the `unicode-normalization` crate,
which is not part of this repository), restricted to the code points
exercised here. `U+00C5` decomposes to `U+0041 U+030A`; the other code
points used in this development have no canonical decomposition. -/
def canonicalDecomp (c : Nat) : List Nat :=
  if c = 0xC5 then [0x41, 0x30A] else [c]

/-- Modelled from the spec: the compatibility decomposition mapping of the
external provider, restricted to the code points exercised here. It extends
the canonical decompositions with `U+3392 → M H z` and the fullwidth Latin
letters `U+FF21..U+FF3A`, `U+FF41..U+FF5A` mapping to their ASCII
counterparts. -/
def compatDecomp (c : Nat) : List Nat :=
  if c = 0xC5 then [0x41, 0x30A]
  else if c = 0x3392 then [0x4D, 0x48, 0x7A]
  else if 0xFF21 ≤ c ∧ c ≤ 0xFF3A then [c - 0xFEE0]
  else if 0xFF41 ≤ c ∧ c ≤ 0xFF5A then [c - 0xFEE0]
  else [c]

/-- Modelled from the spec: the canonical combining class of the external
provider, restricted to the code points exercised here (`U+030A` combining
ring above has class 230; all others used here have class 0). -/
def combiningClass (c : Nat) : Nat :=
  if c = 0x30A then 230 else 0

/-- One adjacent-swap pass of the spec's stable reordering sort, carrying
the current head: adjacent `(code point, class)` pairs are swapped only when
both classes are nonzero and out of order. -/
def bubbleOnceAux (a : Nat × Nat) : List (Nat × Nat) → List (Nat × Nat)
  | [] => [a]
  | b :: rest =>
    if a.2 ≠ 0 ∧ b.2 ≠ 0 ∧ b.2 < a.2 then b :: bubbleOnceAux a rest
    else a :: bubbleOnceAux b rest

/-- One full adjacent-swap pass over the buffer. -/
def bubbleOnce : List (Nat × Nat) → List (Nat × Nat)
  | [] => []
  | a :: rest => bubbleOnceAux a rest

/-- Iterated adjacent-swap passes; `length` passes reach the stable fixpoint of
the spec's bubble sort (its early exit is only an optimisation). -/
def bubblePasses : Nat → List (Nat × Nat) → List (Nat × Nat)
  | 0, l => l
  | n + 1, l => bubblePasses n (bubbleOnce l)

/-- Modelled from the spec: the Canonical Ordering step of the external
normalization provider — a stable reorder of each run of nonzero
combining-class code points into non-decreasing class order. -/
def canonicalOrderKeys (l : List Nat) : List Nat :=
  let pairs := l.map fun c => (c, combiningClass c)
  (bubblePasses pairs.length pairs).map Prod.fst

/-- Modelled from the spec: the NFD transform of the external
`unicode-normalization` crate — full canonical decomposition followed by
canonical ordering. -/
def nfd (l : List Nat) : List Nat :=
  canonicalOrderKeys (l.flatMap canonicalDecomp)

/-- Modelled from the spec: the NFKD transform of the external
`unicode-normalization` crate — full compatibility decomposition followed
by canonical ordering. -/
def nfkd (l : List Nat) : List Nat :=
  canonicalOrderKeys (l.flatMap compatDecomp)

/-- Rust `Caseless::canonical_caseless_match`: NFD, case fold, NFD each operand,
then compare with `iter_eq`. -/
def canonical_caseless_match (t : FoldTable) (a b : List Nat) : Bool :=
  iter_eq (nfd (caseFoldList t (nfd a))) (nfd (caseFoldList t (nfd b)))

/-- Rust `Caseless::compatibility_caseless_match`: NFD, case fold, NFKD, case
fold, NFKD each operand, then compare with `iter_eq`. -/
def compatibility_caseless_match (t : FoldTable) (a b : List Nat) : Bool :=
  iter_eq (nfkd (caseFoldList t (nfkd (caseFoldList t (nfd a)))))
          (nfkd (caseFoldList t (nfkd (caseFoldList t (nfd b)))))

/-- Modelled from the spec: the fragment of the generated
`CASE_FOLDING_TABLE` (built from the Unicode `CaseFolding.txt` status-C/F
entries, a generated artefact that is not under `src/`) restricted to the
code points exercised by the spec's examples: ASCII `A`–`Z`, `U+00DF` (ß),
`U+017F` (ſ), the Cherokee letters `U+13F8..U+13FD` and `U+AB70..U+ABBF`
(which fold to their uppercase counterparts `U+13F0..` and `U+13A0..`),
the ligature `U+FB03` (ﬃ), and fullwidth `Ａ`–`Ｚ`. Entries are sorted by
source code point as in the generated table. -/
def CASE_FOLDING_TABLE : FoldTable := [
  (0x41, 0x61, 0x0, 0x0),
  (0x42, 0x62, 0x0, 0x0),
  (0x43, 0x63, 0x0, 0x0),
  (0x44, 0x64, 0x0, 0x0),
  (0x45, 0x65, 0x0, 0x0),
  (0x46, 0x66, 0x0, 0x0),
  (0x47, 0x67, 0x0, 0x0),
  (0x48, 0x68, 0x0, 0x0),
  (0x49, 0x69, 0x0, 0x0),
  (0x4A, 0x6A, 0x0, 0x0),
  (0x4B, 0x6B, 0x0, 0x0),
  (0x4C, 0x6C, 0x0, 0x0),
  (0x4D, 0x6D, 0x0, 0x0),
  (0x4E, 0x6E, 0x0, 0x0),
  (0x4F, 0x6F, 0x0, 0x0),
  (0x50, 0x70, 0x0, 0x0),
  (0x51, 0x71, 0x0, 0x0),
  (0x52, 0x72, 0x0, 0x0),
  (0x53, 0x73, 0x0, 0x0),
  (0x54, 0x74, 0x0, 0x0),
  (0x55, 0x75, 0x0, 0x0),
  (0x56, 0x76, 0x0, 0x0),
  (0x57, 0x77, 0x0, 0x0),
  (0x58, 0x78, 0x0, 0x0),
  (0x59, 0x79, 0x0, 0x0),
  (0x5A, 0x7A, 0x0, 0x0),
  (0xDF, 0x73, 0x73, 0x0),
  (0x17F, 0x73, 0x0, 0x0),
  (0x13F8, 0x13F0, 0x0, 0x0),
  (0x13F9, 0x13F1, 0x0, 0x0),
  (0x13FA, 0x13F2, 0x0, 0x0),
  (0x13FB, 0x13F3, 0x0, 0x0),
  (0x13FC, 0x13F4, 0x0, 0x0),
  (0x13FD, 0x13F5, 0x0, 0x0),
  (0xAB70, 0x13A0, 0x0, 0x0),
  (0xAB71, 0x13A1, 0x0, 0x0),
  (0xAB72, 0x13A2, 0x0, 0x0),
  (0xAB73, 0x13A3, 0x0, 0x0),
  (0xAB74, 0x13A4, 0x0, 0x0),
  (0xAB75, 0x13A5, 0x0, 0x0),
  (0xAB76, 0x13A6, 0x0, 0x0),
  (0xAB77, 0x13A7, 0x0, 0x0),
  (0xAB78, 0x13A8, 0x0, 0x0),
  (0xAB79, 0x13A9, 0x0, 0x0),
  (0xAB7A, 0x13AA, 0x0, 0x0),
  (0xAB7B, 0x13AB, 0x0, 0x0),
  (0xAB7C, 0x13AC, 0x0, 0x0),
  (0xAB7D, 0x13AD, 0x0, 0x0),
  (0xAB7E, 0x13AE, 0x0, 0x0),
  (0xAB7F, 0x13AF, 0x0, 0x0),
  (0xAB80, 0x13B0, 0x0, 0x0),
  (0xAB81, 0x13B1, 0x0, 0x0),
  (0xAB82, 0x13B2, 0x0, 0x0),
  (0xAB83, 0x13B3, 0x0, 0x0),
  (0xAB84, 0x13B4, 0x0, 0x0),
  (0xAB85, 0x13B5, 0x0, 0x0),
  (0xAB86, 0x13B6, 0x0, 0x0),
  (0xAB87, 0x13B7, 0x0, 0x0),
  (0xAB88, 0x13B8, 0x0, 0x0),
  (0xAB89, 0x13B9, 0x0, 0x0),
  (0xAB8A, 0x13BA, 0x0, 0x0),
  (0xAB8B, 0x13BB, 0x0, 0x0),
  (0xAB8C, 0x13BC, 0x0, 0x0),
  (0xAB8D, 0x13BD, 0x0, 0x0),
  (0xAB8E, 0x13BE, 0x0, 0x0),
  (0xAB8F, 0x13BF, 0x0, 0x0),
  (0xAB90, 0x13C0, 0x0, 0x0),
  (0xAB91, 0x13C1, 0x0, 0x0),
  (0xAB92, 0x13C2, 0x0, 0x0),
  (0xAB93, 0x13C3, 0x0, 0x0),
  (0xAB94, 0x13C4, 0x0, 0x0),
  (0xAB95, 0x13C5, 0x0, 0x0),
  (0xAB96, 0x13C6, 0x0, 0x0),
  (0xAB97, 0x13C7, 0x0, 0x0),
  (0xAB98, 0x13C8, 0x0, 0x0),
  (0xAB99, 0x13C9, 0x0, 0x0),
  (0xAB9A, 0x13CA, 0x0, 0x0),
  (0xAB9B, 0x13CB, 0x0, 0x0),
  (0xAB9C, 0x13CC, 0x0, 0x0),
  (0xAB9D, 0x13CD, 0x0, 0x0),
  (0xAB9E, 0x13CE, 0x0, 0x0),
  (0xAB9F, 0x13CF, 0x0, 0x0),
  (0xABA0, 0x13D0, 0x0, 0x0),
  (0xABA1, 0x13D1, 0x0, 0x0),
  (0xABA2, 0x13D2, 0x0, 0x0),
  (0xABA3, 0x13D3, 0x0, 0x0),
  (0xABA4, 0x13D4, 0x0, 0x0),
  (0xABA5, 0x13D5, 0x0, 0x0),
  (0xABA6, 0x13D6, 0x0, 0x0),
  (0xABA7, 0x13D7, 0x0, 0x0),
  (0xABA8, 0x13D8, 0x0, 0x0),
  (0xABA9, 0x13D9, 0x0, 0x0),
  (0xABAA, 0x13DA, 0x0, 0x0),
  (0xABAB, 0x13DB, 0x0, 0x0),
  (0xABAC, 0x13DC, 0x0, 0x0),
  (0xABAD, 0x13DD, 0x0, 0x0),
  (0xABAE, 0x13DE, 0x0, 0x0),
  (0xABAF, 0x13DF, 0x0, 0x0),
  (0xABB0, 0x13E0, 0x0, 0x0),
  (0xABB1, 0x13E1, 0x0, 0x0),
  (0xABB2, 0x13E2, 0x0, 0x0),
  (0xABB3, 0x13E3, 0x0, 0x0),
  (0xABB4, 0x13E4, 0x0, 0x0),
  (0xABB5, 0x13E5, 0x0, 0x0),
  (0xABB6, 0x13E6, 0x0, 0x0),
  (0xABB7, 0x13E7, 0x0, 0x0),
  (0xABB8, 0x13E8, 0x0, 0x0),
  (0xABB9, 0x13E9, 0x0, 0x0),
  (0xABBA, 0x13EA, 0x0, 0x0),
  (0xABBB, 0x13EB, 0x0, 0x0),
  (0xABBC, 0x13EC, 0x0, 0x0),
  (0xABBD, 0x13ED, 0x0, 0x0),
  (0xABBE, 0x13EE, 0x0, 0x0),
  (0xABBF, 0x13EF, 0x0, 0x0),
  (0xFB03, 0x66, 0x66, 0x69),
  (0xFF21, 0xFF41, 0x0, 0x0),
  (0xFF22, 0xFF42, 0x0, 0x0),
  (0xFF23, 0xFF43, 0x0, 0x0),
  (0xFF24, 0xFF44, 0x0, 0x0),
  (0xFF25, 0xFF45, 0x0, 0x0),
  (0xFF26, 0xFF46, 0x0, 0x0),
  (0xFF27, 0xFF47, 0x0, 0x0),
  (0xFF28, 0xFF48, 0x0, 0x0),
  (0xFF29, 0xFF49, 0x0, 0x0),
  (0xFF2A, 0xFF4A, 0x0, 0x0),
  (0xFF2B, 0xFF4B, 0x0, 0x0),
  (0xFF2C, 0xFF4C, 0x0, 0x0),
  (0xFF2D, 0xFF4D, 0x0, 0x0),
  (0xFF2E, 0xFF4E, 0x0, 0x0),
  (0xFF2F, 0xFF4F, 0x0, 0x0),
  (0xFF30, 0xFF50, 0x0, 0x0),
  (0xFF31, 0xFF51, 0x0, 0x0),
  (0xFF32, 0xFF52, 0x0, 0x0),
  (0xFF33, 0xFF53, 0x0, 0x0),
  (0xFF34, 0xFF54, 0x0, 0x0),
  (0xFF35, 0xFF55, 0x0, 0x0),
  (0xFF36, 0xFF56, 0x0, 0x0),
  (0xFF37, 0xFF57, 0x0, 0x0),
  (0xFF38, 0xFF58, 0x0, 0x0),
  (0xFF39, 0xFF59, 0x0, 0x0),
  (0xFF3A, 0xFF5A, 0x0, 0x0)
]

/-- Code points of a Rust `&str` (`s.chars()`). -/
def strCodes (s : String) : List Nat :=
  s.data.map Char.toNat

/-- Rebuild a string from scalar values (`collect::<String>()`). -/
def codesStr (l : List Nat) : String :=
  ⟨l.map Char.ofNat⟩

/-- Rust `default_case_fold_str` from `lib.rs`. -/
def default_case_fold_str (s : String) : String :=
  codesStr (caseFoldList CASE_FOLDING_TABLE (strCodes s))

/-- Rust `default_caseless_match_str` from `lib.rs`. -/
def default_caseless_match_str (a b : String) : Bool :=
  default_caseless_match CASE_FOLDING_TABLE (strCodes a) (strCodes b)

/-- Rust `canonical_caseless_match_str` from `lib.rs`. -/
def canonical_caseless_match_str (a b : String) : Bool :=
  canonical_caseless_match CASE_FOLDING_TABLE (strCodes a) (strCodes b)

/-- Rust `compatibility_caseless_match_str` from `lib.rs`. -/
def compatibility_caseless_match_str (a b : String) : Bool :=
  compatibility_caseless_match CASE_FOLDING_TABLE (strCodes a) (strCodes b)

end Caseless

namespace Caseless

/-! The table-construction logic of `build.rs`, embedded over `List Char`
lines of the `CaseFolding.txt` data file (the version-header line is handled
separately by `parse_version` and carries no table data, so it is omitted
here). A `none` result models a panicking `unwrap!`/`assert!` aborting the
build. -/

/-- Rust `MAX_FOLDED_CODE_POINTS` from `build.rs`: case folding a single code
point can give up to this many code points. -/
def MAX_FOLDED_CODE_POINTS : Nat := 3

/-- Value of one hexadecimal digit, as accepted by
`u32::from_str_radix(hex, 16)`. -/
def hexDigitVal (c : Char) : Option Nat :=
  if '0' ≤ c ∧ c ≤ '9' then some (c.toNat - '0'.toNat)
  else if 'a' ≤ c ∧ c ≤ 'f' then some (c.toNat - 'a'.toNat + 10)
  else if 'A' ≤ c ∧ c ≤ 'F' then some (c.toNat - 'A'.toNat + 10)
  else none

/-- Digit-accumulation loop of `u32::from_str_radix(_, 16)`; `none` on a
non-digit or on overflow past `u32::MAX`. -/
def fromStrRadix16Core : List Char → Nat → Option Nat
  | [], acc => some acc
  | c :: rest, acc =>
    match hexDigitVal c with
    | none => none
    | some d =>
      let acc' := acc * 16 + d
      if acc' < 2 ^ 32 then fromStrRadix16Core rest acc' else none

/-- Rust `u32::from_str_radix(hex, 16)`: an optional leading `+` followed by at
least one hexadecimal digit. -/
def fromStrRadix16 (s : List Char) : Option Nat :=
  let digits := match s with
    | '+' :: rest => rest
    | _ => s
  match digits with
  | [] => none
  | _ :: _ => fromStrRadix16Core digits 0

/-- Rust `hex_to_escaped` from `build.rs`, kept at the numeric level: parse the
hexadecimal code point, `assert!(c != 0)`, and `char::from_u32(c).unwrap()`
(the subsequent `escape_default` step only formats the value as a char
literal of the generated source and does not change it). -/
def hex_to_escaped (hex : List Char) : Option Nat :=
  match fromStrRadix16 hex with
  | none => none
  | some c =>
    if c ≠ 0 ∧ (c < 0xD800 ∨ (0xE000 ≤ c ∧ c < 0x110000)) then some c else none

/-- Rust `str::split` on the two-character pattern `"; "`. -/
def splitFields : List Char → List (List Char)
  | [] => [[]]
  | ';' :: ' ' :: rest => [] :: splitFields rest
  | c :: rest =>
    match splitFields rest with
    | [] => [[c]]
    | f :: fs => (c :: f) :: fs

/-- Rust `str::split(' ')`, used on the replacement-sequence field. -/
def splitSpace : List Char → List (List Char)
  | [] => [[]]
  | ' ' :: rest => [] :: splitSpace rest
  | c :: rest =>
    match splitSpace rest with
    | [] => [[c]]
    | f :: fs => (c :: f) :: fs

/-- Rust `parts[2].split(' ').map(hex_to_escaped).collect()`: a panic inside any
`hex_to_escaped` call propagates as `none`. -/
def mapHex : List (List Char) → Option (List Nat)
  | [] => some []
  | h :: rest =>
    match hex_to_escaped h with
    | none => none
    | some c =>
      match mapHex rest with
      | none => none
      | some cs => some (c :: cs)

/-- Rust `parse_line` from `build.rs`: strip the comment part, skip an empty
line (`some none`), split the rest into fields, and check
`parts.len() == 4`, a valid status field, and an empty trailing field.
The outer `none` models a panic; `some (some (from, status, to))` is a
successfully parsed data line. -/
def parse_line (line : List Char) : Option (Option (Nat × Char × List Nat)) :=
  let pre_comment := line.takeWhile fun c => c ≠ '#'
  if pre_comment = [] then some none
  else
    let parts := splitFields pre_comment
    if parts.length = 4 then
      let status := parts.getD 1 []
      if status = ['C'] ∨ status = ['F'] ∨ status = ['S'] ∨ status = ['T'] then
        if parts.getD 3 [] = [] then
          match hex_to_escaped (parts.getD 0 []) with
          | none => none
          | some fromCp =>
            match mapHex (splitSpace (parts.getD 2 [])) with
            | none => none
            | some tos =>
              some (some (fromCp, status.headD ' ', tos))
        else none
      else none
    else none

/-- Rust `status_is_f_or_c` from `build.rs`. -/
def status_is_f_or_c (entry : Nat × Char × List Nat) : Bool :=
  entry.2.1 == 'F' || entry.2.1 == 'C'

/-- The table-construction loop of `main` in `build.rs`, on the data lines
of `CaseFolding.txt`: parse each line, keep only status-`C`/`F` entries,
`assert!(to.len() <= MAX_FOLDED_CODE_POINTS)`, take the first replacement
code point with `to.next().unwrap()`, and pad the remaining slots with NUL.
`none` models any panic or assertion failure aborting the build. -/
def buildTable : List (List Char) → Option FoldTable
  | [] => some []
  | line :: rest =>
    match parse_line line with
    | none => none
    | some none => buildTable rest
    | some (some entry) =>
      if status_is_f_or_c entry then
        if entry.2.2.length ≤ MAX_FOLDED_CODE_POINTS then
          match entry.2.2 with
          | [] => none
          | r0 :: rs =>
            match buildTable rest with
            | none => none
            | some t => some ((entry.1, r0, rs.getD 0 0, rs.getD 1 0) :: t)
        else none
      else buildTable rest

/-- Sortedness of a fold table by source code point (strictly increasing),
the precondition of the binary-search lookup. -/
def tableSorted : FoldTable → Bool
  | [] => true
  | [_] => true
  | a :: b :: rest => decide (a.1 < b.1) && tableSorted (b :: rest)

/-- The entry invariant guaranteed by a successful build: nonzero source,
nonzero first replacement code point (so the padded replacement sequence
has length 1 to 3), and NUL padding only in a contiguous tail. -/
def entryOk (e : Nat × Nat × Nat × Nat) : Bool :=
  (e.1 != 0) && (e.2.1 != 0) && (e.2.2.1 != 0 || e.2.2.2 == 0)

end Caseless

namespace Caseless

/-- Rust `usize::MAX` on the 64-bit targets the crate is built for. -/
def USIZE_MAX : Nat := 2 ^ 64 - 1

/-- Rust `usize::saturating_add`. -/
def saturatingAdd (a b : Nat) : Nat := min (a + b) USIZE_MAX

/-- Rust `usize::checked_mul`. -/
def checkedMul (a b : Nat) : Option Nat :=
  if a * b ≤ USIZE_MAX then some (a * b) else none

/-- Rust `usize::checked_add`. -/
def checkedAdd (a b : Nat) : Option Nat :=
  if a + b ≤ USIZE_MAX then some (a + b) else none

/-- Rust `CaseFold::size_hint`: decode the queue length from the NUL sentinels,
then report the inner lower bound saturating-added to the queue length, and
the inner upper bound checked-multiplied by 3 and checked-added to the
queue length. `inner` is the size hint reported by the upstream iterator. -/
def CaseFold.sizeHint (s : CaseFold) (inner : Nat × Option Nat) : Nat × Option Nat :=
  let queue_len := s.queueLen
  (saturatingAdd inner.1 queue_len,
    (inner.2.bind fun h => checkedMul h 3).bind fun h => checkedAdd h queue_len)

/-- Modelled from the spec: the ternary comparison primitive of §4.3 — a
pairwise-synchronized pull over both transformed streams in which the first
mismatching pair decides by numeric comparison and the shorter stream is
`Less` — which the spec lists on the public surface but which is not
present in `src/lib.rs`. -/
def iter_cmp : List Nat → List Nat → Ordering
  | [], [] => Ordering.eq
  | [], _ :: _ => Ordering.lt
  | _ :: _, [] => Ordering.gt
  | x :: xs, y :: ys =>
    if x < y then Ordering.lt
    else if y < x then Ordering.gt
    else iter_cmp xs ys

/-- Modelled from the spec: default caseless ternary comparison — compare
the case-folded streams. -/
def default_caseless_compare (t : FoldTable) (a b : List Nat) : Ordering :=
  iter_cmp (caseFoldList t a) (caseFoldList t b)

/-- Modelled from the spec: canonical caseless ternary comparison — compare
the streams after the canonical pipeline NFD, fold, NFD. -/
def canonical_caseless_compare (t : FoldTable) (a b : List Nat) : Ordering :=
  iter_cmp (nfd (caseFoldList t (nfd a))) (nfd (caseFoldList t (nfd b)))

/-- Modelled from the spec: compatibility caseless ternary comparison —
compare the streams after the pipeline NFD, fold, NFKD, fold, NFKD. -/
def compatibility_caseless_compare (t : FoldTable) (a b : List Nat) : Ordering :=
  iter_cmp (nfkd (caseFoldList t (nfkd (caseFoldList t (nfd a)))))
           (nfkd (caseFoldList t (nfkd (caseFoldList t (nfd b)))))

/-- Modelled from the spec: the string-typed convenience wrapper of the
default ternary comparison. -/
def default_caseless_compare_str (a b : String) : Ordering :=
  default_caseless_compare CASE_FOLDING_TABLE (strCodes a) (strCodes b)

end Caseless

namespace Caseless

theorem queueLen_le_two (s : CaseFold) : s.queueLen ≤ 2 := by
  unfold CaseFold.queueLen
  split <;> [omega; skip]
  split <;> omega

theorem queueItems_length (q0 q1 : Nat) :
    (queueItems q0 q1).length = CaseFold.queueLen ⟨[], q0, q1⟩ := by
  simp only [queueItems, CaseFold.queueLen]
  split <;> [rfl; skip]
  split <;> rfl

/-- Running the `CaseFold` iterator from any state with enough fuel yields
the queue's pending code points followed by the concatenated per-code-point
folds of the remaining upstream. -/
theorem collectFuel_state (t : FoldTable) :
    ∀ (fuel : Nat) (s : CaseFold), s.measure < fuel →
      CaseFold.collectFuel t fuel s =
        queueItems s.queue0 s.queue1 ++ s.chars.flatMap (scalarFold t) := by
  intro fuel
  induction fuel with
  | zero => intro s h; omega
  | succ f ih =>
    intro s h
    obtain ⟨chars, q0, q1⟩ := s
    by_cases h0 : q0 = 0
    · subst h0
      have hq : CaseFold.queueLen ⟨chars, 0, q1⟩ = 0 := by
        simp [CaseFold.queueLen]
      have hm : 3 * chars.length < f + 1 := by
        simpa [CaseFold.measure, hq] using h
      cases chars with
      | nil =>
        simp [CaseFold.collectFuel, CaseFold.next, queueItems]
      | cons c rest =>
        rcases hb : binarySearchTable t c with _ | i
        · have hnext : CaseFold.next t ⟨c :: rest, 0, q1⟩ = some (c, ⟨rest, 0, q1⟩) := by
            simp [CaseFold.next, hb]
          have ihr := ih ⟨rest, 0, q1⟩ (by
            simp only [CaseFold.measure, CaseFold.queueLen]
            simp only [List.length_cons] at hm
            simp
            omega)
          simp only [CaseFold.collectFuel, hnext]
          simp [ihr, queueItems, scalarFold, hb]
        · have hnext : CaseFold.next t ⟨c :: rest, 0, q1⟩ =
              some ((t.getD i (0, 0, 0, 0)).2.1,
                ⟨rest, (t.getD i (0, 0, 0, 0)).2.2.1, (t.getD i (0, 0, 0, 0)).2.2.2⟩) := by
            simp [CaseFold.next, hb]
          have hql := queueLen_le_two
            ⟨rest, (t.getD i (0, 0, 0, 0)).2.2.1, (t.getD i (0, 0, 0, 0)).2.2.2⟩
          have ihr := ih ⟨rest, (t.getD i (0, 0, 0, 0)).2.2.1, (t.getD i (0, 0, 0, 0)).2.2.2⟩ (by
            simp only [CaseFold.measure, List.length_cons] at hm ⊢
            omega)
          simp only [CaseFold.collectFuel, hnext]
          rw [ihr]
          simp [scalarFold, hb, queueItems]
    · have hnext : CaseFold.next t ⟨chars, q0, q1⟩ = some (q0, ⟨chars, q1, 0⟩) := by
        simp [CaseFold.next, h0]
      have hms : CaseFold.measure ⟨chars, q1, 0⟩ < CaseFold.measure ⟨chars, q0, q1⟩ := by
        simp only [CaseFold.measure, CaseFold.queueLen]
        by_cases hq1 : q1 = 0 <;> simp [h0, hq1]
      have ihr := ih ⟨chars, q1, 0⟩ (by omega)
      simp only [CaseFold.collectFuel, hnext]
      rw [ihr]
      by_cases hq1 : q1 = 0 <;> simp [queueItems, h0, hq1]

/-- The streaming case-fold transform agrees with the concatenation of the
per-code-point folds: this is the concatenation contract of §4.1. -/
theorem caseFoldList_eq_flatMap (t : FoldTable) (l : List Nat) :
    caseFoldList t l = l.flatMap (scalarFold t) := by
  have h := collectFuel_state t ((default_case_fold l).measure + 1) (default_case_fold l)
    (Nat.lt_succ_self _)
  simpa [caseFoldList, CaseFold.collect, default_case_fold, queueItems] using h

theorem iter_eq_eq_decide : ∀ x y : List Nat, iter_eq x y = decide (x = y)
  | [], [] => rfl
  | [], _ :: _ => rfl
  | _ :: _, [] => rfl
  | a :: xs, b :: ys => by
    simp only [iter_eq]
    rcases eq_or_ne a b with rfl | hab
    · simp [iter_eq_eq_decide xs ys]
    · simp [hab]

theorem scalarFold_length_pos (t : FoldTable) (c : Nat) :
    1 ≤ (scalarFold t c).length := by
  unfold scalarFold
  split <;> simp

theorem scalarFold_length_le (t : FoldTable) (c : Nat) :
    (scalarFold t c).length ≤ 3 := by
  unfold scalarFold
  split
  · simp
  · simp only [List.length_cons, queueItems]
    split <;> [simp; split <;> simp]

theorem flatMap_scalarFold_length (t : FoldTable) (l : List Nat) :
    l.length ≤ (l.flatMap (scalarFold t)).length ∧
      (l.flatMap (scalarFold t)).length ≤ 3 * l.length := by
  induction l with
  | nil => simp
  | cons c rest ih =>
    have h1 := scalarFold_length_pos t c
    have h2 := scalarFold_length_le t c
    simp only [List.flatMap_cons, List.length_append, List.length_cons]
    omega

end Caseless

namespace Caseless

/-- Binary search only answers `some i` for a real index whose entry's
source code point is the searched one (no sortedness needed for this
direction). -/
theorem binarySearchLoop_sound (t : FoldTable) (c : Nat) :
    ∀ (fuel left right i : Nat), right ≤ t.length →
      binarySearchLoop t c fuel left right = some i →
      i < t.length ∧ (t.getD i (0, 0, 0, 0)).1 = c := by
  intro fuel
  induction fuel with
  | zero => intro l r i _ h; simp [binarySearchLoop] at h
  | succ f ih =>
    intro l r i hr h
    simp only [binarySearchLoop] at h
    split at h
    case isTrue hlr =>
      split at h
      · exact ih _ _ _ hr h
      · split at h
        · exact ih _ _ _ (by omega) h
        · cases h
          refine ⟨by omega, by omega⟩
    case isFalse hlr => simp at h
  
theorem binarySearchTable_sound (t : FoldTable) (c i : Nat)
    (h : binarySearchTable t c = some i) :
    i < t.length ∧ (t.getD i (0, 0, 0, 0)).1 = c :=
  binarySearchLoop_sound t c (t.length + 1) 0 t.length i (le_refl _) h

/-- Folding distributes over any per-code-point transform that is already
a fixpoint on each of its own outputs. -/
theorem flatMap_idem {f : Nat → List Nat} (hf : ∀ c, (f c).flatMap f = f c) :
    ∀ l : List Nat, (l.flatMap f).flatMap f = l.flatMap f
  | [] => by simp
  | c :: rest => by
    simp only [List.flatMap_cons, List.flatMap_append]
    rw [hf c, flatMap_idem hf rest]

/-- Every replacement code point the modelled table can emit is itself a
fixpoint of the fold (it is either unmapped or NUL padding). -/
theorem table_reps_fixed : CASE_FOLDING_TABLE.all (fun e =>
    (scalarFold CASE_FOLDING_TABLE e.2.1 == [e.2.1]) &&
    (e.2.2.1 == 0 || scalarFold CASE_FOLDING_TABLE e.2.2.1 == [e.2.2.1]) &&
    (e.2.2.2 == 0 || scalarFold CASE_FOLDING_TABLE e.2.2.2 == [e.2.2.2])) = true := by
  decide

theorem scalarFold_fixed (c : Nat) :
    (scalarFold CASE_FOLDING_TABLE c).flatMap (scalarFold CASE_FOLDING_TABLE) =
      scalarFold CASE_FOLDING_TABLE c := by
  rcases hb : binarySearchTable CASE_FOLDING_TABLE c with _ | i
  · simp [scalarFold, hb]
  · obtain ⟨hi, _⟩ := binarySearchTable_sound _ _ _ hb
    have hmem : CASE_FOLDING_TABLE.getD i (0, 0, 0, 0) ∈ CASE_FOLDING_TABLE := by
      rw [List.getD_eq_getElem _ _ hi]
      exact List.getElem_mem hi
    have hall := List.all_eq_true.mp table_reps_fixed _ hmem
    simp only [Bool.and_eq_true, Bool.or_eq_true, beq_iff_eq] at hall
    obtain ⟨⟨h0, h1⟩, h2⟩ := hall
    simp only [scalarFold, hb]
    set e := CASE_FOLDING_TABLE.getD i (0, 0, 0, 0) with he
    simp only [List.flatMap_cons]
    rw [h0]
    by_cases hq1 : e.2.2.1 = 0
    · by_cases hq2 : e.2.2.2 = 0 <;> simp [queueItems, hq1]
    · rcases h1 with h1 | h1
      · exact absurd h1 hq1
      · by_cases hq2 : e.2.2.2 = 0
        · simp [queueItems, hq1, hq2, h1]
        · rcases h2 with h2 | h2
          · exact absurd h2 hq2
          · simp [queueItems, hq1, hq2, h1, h2]

end Caseless

namespace Caseless

/-- Claim C1: concatenating the output of the streaming case-fold transform
yields the default case folding of the concatenated input (the per-code-point
table folds concatenated in order); `default_case_fold_str` maps
`"Test Case"` to `"test case"`, the ligature `ﬃ` to `"ffi"`, `ß` to `"ss"`,
and every lowercase Cherokee letter (`U+AB70..U+ABBF`, `U+13F8..U+13FD`) to
its uppercase counterpart, which is itself left unchanged by folding. -/
theorem caseFold_concat_and_examples :
    (∀ (t : FoldTable) (l : List Nat), caseFoldList t l = l.flatMap (scalarFold t)) ∧
    default_case_fold_str "Test Case" = "test case" ∧
    default_case_fold_str "ﬃ" = "ffi" ∧
    default_case_fold_str "ß" = "ss" ∧
    default_case_fold_str "ꭴꮎꮅꭲᏼ" = "ᎤᎾᎵᎢᏴ" ∧
    (List.range 80).all (fun k =>
      decide (caseFoldList CASE_FOLDING_TABLE [0xAB70 + k] = [0x13A0 + k] ∧
        caseFoldList CASE_FOLDING_TABLE [0x13A0 + k] = [0x13A0 + k])) = true ∧
    (List.range 6).all (fun k =>
      decide (caseFoldList CASE_FOLDING_TABLE [0x13F8 + k] = [0x13F0 + k] ∧
        caseFoldList CASE_FOLDING_TABLE [0x13F0 + k] = [0x13F0 + k])) = true :=
  ⟨caseFoldList_eq_flatMap, by decide, by decide, by decide, by decide, by decide, by decide⟩

/-- Claim C4: default caseless matching compares the two case-folded streams
with the pairwise-synchronized pull `iter_eq`, and `iter_eq` answers `true`
exactly when the two streams are equal — both exhaust together with no
mismatching pair; a mismatching pair or one stream exhausting first gives
`false`. -/
theorem default_match_iff_folds_equal :
    (∀ (t : FoldTable) (a b : List Nat),
      default_caseless_match t a b =
        iter_eq (caseFoldList t a) (caseFoldList t b)) ∧
    (∀ (t : FoldTable) (a b : List Nat),
      default_caseless_match t a b = true ↔ caseFoldList t a = caseFoldList t b) ∧
    (∀ x y : List Nat, iter_eq x y = true ↔ x = y) := by
  refine ⟨fun _ _ _ => rfl, fun t a b => ?_, fun x y => ?_⟩
  · rw [default_caseless_match, iter_eq_eq_decide]
    exact decide_eq_true_iff
  · rw [iter_eq_eq_decide]
    exact decide_eq_true_iff

/-- Claim C5: default caseless matching is reflexive and symmetric, but it
performs no normalization: the precomposed `Å` (`U+00C5`) does not match
`A` followed by combining ring above (`U+0041 U+030A`). -/
theorem default_match_refl_symm_no_normalization :
    (∀ (t : FoldTable) (s : List Nat), default_caseless_match t s s = true) ∧
    (∀ (t : FoldTable) (a b : List Nat),
      default_caseless_match t a b = default_caseless_match t b a) ∧
    default_caseless_match_str "Å" "Å" = false := by
  refine ⟨fun t s => ?_, fun t a b => ?_, by decide⟩
  · rw [default_caseless_match, iter_eq_eq_decide]
    simp
  · rw [default_caseless_match, default_caseless_match, iter_eq_eq_decide, iter_eq_eq_decide]
    exact decide_eq_decide.mpr ⟨Eq.symm, Eq.symm⟩

/-- Claim C6: case folding with the crate's table is idempotent — folding an
already-folded stream yields the same stream, for every input, including
code points (such as the uppercase Cherokee letters) that are fixed points
of folding. -/
theorem caseFold_idempotent (l : List Nat) :
    caseFoldList CASE_FOLDING_TABLE (caseFoldList CASE_FOLDING_TABLE l) =
      caseFoldList CASE_FOLDING_TABLE l := by
  rw [caseFoldList_eq_flatMap, caseFoldList_eq_flatMap]
  exact flatMap_idem scalarFold_fixed l

end Caseless

namespace Caseless

/-- Claim C2: canonical caseless matching applies NFD, case fold, NFD to
each operand and compares with `iter_eq`; it equates the precomposed `Å`
(`U+00C5`) with `A` + combining ring (`U+0041 U+030A`), and does not equate
the compatibility-only pair `㎒` / `MHz`. -/
theorem canonical_match_pipeline_and_examples :
    (∀ (t : FoldTable) (a b : List Nat),
      canonical_caseless_match t a b =
        iter_eq (nfd (caseFoldList t (nfd a))) (nfd (caseFoldList t (nfd b)))) ∧
    canonical_caseless_match_str "\u00C5" "\u0041\u030A" = true ∧
    canonical_caseless_match_str "㎒" "MHz" = false :=
  ⟨fun _ _ _ => rfl, by decide, by decide⟩

/-- Claim C3: compatibility caseless matching applies NFD, case fold, NFKD,
case fold, NFKD to each operand and compares with `iter_eq`; it equates
`㎒` with `MHz` and fullwidth `ＫＡＤＯＫＡＷＡ` with `KADOKAWA`. -/
theorem compatibility_match_pipeline_and_examples :
    (∀ (t : FoldTable) (a b : List Nat),
      compatibility_caseless_match t a b =
        iter_eq (nfkd (caseFoldList t (nfkd (caseFoldList t (nfd a)))))
                (nfkd (caseFoldList t (nfkd (caseFoldList t (nfd b)))))) ∧
    compatibility_caseless_match_str "㎒" "MHz" = true ∧
    compatibility_caseless_match_str "ＫＡＤＯＫＡＷＡ" "KADOKAWA" = true :=
  ⟨fun _ _ _ => rfl, by decide, by decide⟩

theorem iter_cmp_refl : ∀ x : List Nat, iter_cmp x x = Ordering.eq
  | [] => rfl
  | a :: xs => by simp [iter_cmp, iter_cmp_refl xs]

theorem iter_cmp_mismatch :
    ∀ (p : List Nat) (x y : Nat) (xs ys : List Nat), x ≠ y →
      iter_cmp (p ++ x :: xs) (p ++ y :: ys) =
        if x < y then Ordering.lt else Ordering.gt
  | [], x, y, xs, ys, hxy => by
    rcases Nat.lt_trichotomy x y with h | h | h
    · simp [iter_cmp, h]
    · exact absurd h hxy
    · simp [iter_cmp, h, Nat.lt_asymm h]
  | a :: p, x, y, xs, ys, hxy => by
    simp only [List.cons_append, iter_cmp, lt_irrefl, if_false]
    exact iter_cmp_mismatch p x y xs ys hxy

theorem iter_cmp_shorter_lt :
    ∀ p q : List Nat, q ≠ [] → iter_cmp p (p ++ q) = Ordering.lt
  | [], [], hq => absurd rfl hq
  | [], _ :: _, _ => rfl
  | a :: p, q, hq => by
    simp only [List.cons_append, iter_cmp, lt_irrefl, if_false]
    exact iter_cmp_shorter_lt p q hq

theorem iter_cmp_longer_gt :
    ∀ p q : List Nat, q ≠ [] → iter_cmp (p ++ q) p = Ordering.gt
  | [], [], hq => absurd rfl hq
  | [], _ :: _, _ => rfl
  | a :: p, q, hq => by
    simp only [List.cons_append, iter_cmp, lt_irrefl, if_false]
    exact iter_cmp_longer_gt p q hq

/-- Claim C7: the ternary comparison (absent from `src/lib.rs`, modelled
from the spec) for the default, canonical and compatibility algorithms runs
`iter_cmp` over the transformed streams; the first mismatching pair decides
`Less`/`Greater` by numeric comparison, the shorter stream is `Less` when no
mismatch occurs, equal length and content give `Equal`; comparing
`"Test Case"` with `"test"` and with `"case"` both give `Greater`. -/
theorem compare_spec_and_examples :
    (∀ (t : FoldTable) (a b : List Nat),
      default_caseless_compare t a b = iter_cmp (caseFoldList t a) (caseFoldList t b)) ∧
    (∀ (t : FoldTable) (a b : List Nat),
      canonical_caseless_compare t a b =
        iter_cmp (nfd (caseFoldList t (nfd a))) (nfd (caseFoldList t (nfd b)))) ∧
    (∀ (t : FoldTable) (a b : List Nat),
      compatibility_caseless_compare t a b =
        iter_cmp (nfkd (caseFoldList t (nfkd (caseFoldList t (nfd a)))))
                 (nfkd (caseFoldList t (nfkd (caseFoldList t (nfd b)))))) ∧
    (∀ x : List Nat, iter_cmp x x = Ordering.eq) ∧
    (∀ (p : List Nat) (x y : Nat) (xs ys : List Nat), x ≠ y →
      iter_cmp (p ++ x :: xs) (p ++ y :: ys) =
        if x < y then Ordering.lt else Ordering.gt) ∧
    (∀ p q : List Nat, q ≠ [] → iter_cmp p (p ++ q) = Ordering.lt) ∧
    (∀ p q : List Nat, q ≠ [] → iter_cmp (p ++ q) p = Ordering.gt) ∧
    default_caseless_compare_str "Test Case" "test" = Ordering.gt ∧
    default_caseless_compare_str "Test Case" "case" = Ordering.gt :=
  ⟨fun _ _ _ => rfl, fun _ _ _ => rfl, fun _ _ _ => rfl, iter_cmp_refl,
    iter_cmp_mismatch, iter_cmp_shorter_lt, iter_cmp_longer_gt, by decide, by decide⟩

/-- Witness for Claim C7 at concrete inputs: the mismatch and length rules
instantiated on explicit streams. -/
theorem compare_spec_and_examples_witness :
    iter_cmp [9, 1] [9, 2] = Ordering.lt ∧
    iter_cmp [9] [9, 2] = Ordering.lt ∧
    iter_cmp [9, 2] [9] = Ordering.gt := by
  refine ⟨?_, ?_, ?_⟩
  · have h := compare_spec_and_examples.2.2.2.2.1 [9] 1 2 [] [] (by decide)
    simpa using h
  · have h := compare_spec_and_examples.2.2.2.2.2.1 [9] [2] (by decide)
    simpa using h
  · have h := compare_spec_and_examples.2.2.2.2.2.2.1 [9] [2] (by decide)
    simpa using h

end Caseless

namespace Caseless

theorem queueItems_length_s (s : CaseFold) :
    (queueItems s.queue0 s.queue1).length = s.queueLen := by
  simp only [queueItems, CaseFold.queueLen]
  split
  · rfl
  · split <;> rfl

theorem collect_eq (t : FoldTable) (s : CaseFold) :
    CaseFold.collect t s =
      queueItems s.queue0 s.queue1 ++ s.chars.flatMap (scalarFold t) :=
  collectFuel_state t (s.measure + 1) s (Nat.lt_succ_self _)

theorem collect_length (t : FoldTable) (s : CaseFold) :
    (CaseFold.collect t s).length =
      s.queueLen + (s.chars.flatMap (scalarFold t)).length := by
  rw [collect_eq, List.length_append, queueItems_length_s]

/-- Claim C9: `CaseFold::size_hint` is sound whenever the inner iterator's
hint is — the decoded queue length plus the inner lower bound (with or
without the saturation) never exceeds the number of remaining output items,
and a returned upper bound equals the inner upper bound times 3 plus the
queue length and is never below the number of remaining output items. -/
theorem sizeHint_sound (t : FoldTable) (s : CaseFold) (low : Nat) (high : Option Nat)
    (hlow : low ≤ s.chars.length)
    (hhigh : ∀ h, high = some h → s.chars.length ≤ h) :
    (s.sizeHint (low, high)).1 ≤ (CaseFold.collect t s).length ∧
    low + s.queueLen ≤ (CaseFold.collect t s).length ∧
    ∀ u, (s.sizeHint (low, high)).2 = some u →
      (CaseFold.collect t s).length ≤ u ∧
      ∃ h, high = some h ∧ u = h * 3 + s.queueLen := by
  have hlen := collect_length t s
  obtain ⟨hfl, hfu⟩ := flatMap_scalarFold_length t s.chars
  refine ⟨?_, by omega, ?_⟩
  · have h1 : (s.sizeHint (low, high)).1 = min (low + s.queueLen) USIZE_MAX := rfl
    rw [h1]
    have := min_le_left (low + s.queueLen) USIZE_MAX
    omega
  · intro u hu
    simp only [CaseFold.sizeHint] at hu
    rcases high with _ | h
    · simp at hu
    · simp only [Option.some_bind, checkedMul, checkedAdd] at hu
      split at hu
      · simp only [Option.some_bind] at hu
        split at hu
        · cases hu
          have hh := hhigh h rfl
          exact ⟨by omega, h, rfl, by ring⟩
        · cases hu
      · cases hu

/-- Witness for Claim C9 with a one-element upstream reporting an exact
hint: the lower bound 1 and the upper bound 3 bracket the single remaining
output item. -/
theorem sizeHint_sound_witness :
    ((CaseFold.sizeHint ⟨[0x41], 0, 0⟩ (1, some 1)).1 ≤
      (CaseFold.collect CASE_FOLDING_TABLE ⟨[0x41], 0, 0⟩).length) ∧
    ((CaseFold.collect CASE_FOLDING_TABLE ⟨[0x41], 0, 0⟩).length ≤ 3 ∧
      ∃ h, (some 1 : Option Nat) = some h ∧
        3 = h * 3 + CaseFold.queueLen ⟨[0x41], 0, 0⟩) := by
  have h := sizeHint_sound CASE_FOLDING_TABLE ⟨[0x41], 0, 0⟩ 1 (some 1)
    (by decide) (by intro h e; cases e; decide)
  exact ⟨h.1, h.2.2 3 (by decide)⟩

end Caseless

namespace Caseless

theorem hex_to_escaped_ne_zero (h : List Char) (c : Nat)
    (hc : hex_to_escaped h = some c) : c ≠ 0 := by
  rcases hv : fromStrRadix16 h with _ | v
  · simp only [hex_to_escaped, hv] at hc
    cases hc
  · simp only [hex_to_escaped, hv] at hc
    split at hc
    · cases hc
      rename_i hcond
      exact hcond.1
    · cases hc

theorem mapHex_ne_zero :
    ∀ (hs : List (List Char)) (cs : List Nat), mapHex hs = some cs →
      ∀ c ∈ cs, c ≠ 0
  | [], cs, h => by
    cases h
    intro c hc
    simp at hc
  | hhd :: hs, cs, h => by
    simp only [mapHex] at h
    rcases he : hex_to_escaped hhd with _ | v
    · simp only [he] at h
      cases h
    · simp only [he] at h
      rcases hm : mapHex hs with _ | vs
      · simp only [hm] at h
        cases h
      · simp only [hm] at h
        cases h
        intro c hc
        rcases List.mem_cons.mp hc with rfl | hcs
        · exact hex_to_escaped_ne_zero hhd c he
        · exact mapHex_ne_zero hs vs hm c hcs

theorem parse_line_sound (line : List Char) (f : Nat) (st : Char) (tos : List Nat)
    (h : parse_line line = some (some (f, st, tos))) :
    f ≠ 0 ∧ ∀ c ∈ tos, c ≠ 0 := by
  simp only [parse_line] at h
  split at h
  · simp at h
  · split at h
    · split at h
      · split at h
        · split at h
          · simp at h
          · split at h
            · simp at h
            · rename_i xv iv hxeq xm tsv hmeq
              simp only [Option.some.injEq, Prod.mk.injEq] at h
              obtain ⟨h1, _, h3⟩ := h
              subst h1
              subst h3
              exact ⟨hex_to_escaped_ne_zero _ _ hxeq, mapHex_ne_zero _ _ hmeq⟩
        · simp at h
      · simp at h
    · simp at h

theorem buildTable_sound :
    ∀ (lines : List (List Char)) (t : FoldTable),
      buildTable lines = some t → t.all entryOk = true
  | [], t, h => by
    cases h
    rfl
  | line :: rest, t, h => by
    simp only [buildTable] at h
    rcases hp : parse_line line with _ | ⟨_ | ⟨f, st, tos⟩⟩
    · simp only [hp] at h
      cases h
    · simp only [hp] at h
      exact buildTable_sound rest t h
    · simp only [hp] at h
      split at h
      · split at h
        · split at h
          · cases h
          · rename_i r0 rs hstat hlen
            rcases hb : buildTable rest with _ | t'
            · simp only [hb] at h
              cases h
            · simp only [hb] at h
              cases h
              obtain ⟨hf, htosz⟩ := parse_line_sound line f st _ hp
              have hr0 : r0 ≠ 0 := htosz r0 (List.mem_cons_self _ _)
              simp only [List.all_cons, Bool.and_eq_true]
              refine ⟨?_, buildTable_sound rest t' hb⟩
              simp only [entryOk, Bool.and_eq_true, bne_iff_ne, ne_eq,
                Bool.or_eq_true, beq_iff_eq]
              refine ⟨⟨hf, hr0⟩, ?_⟩
              cases rs with
              | nil => simp
              | cons a rs' =>
                have ha : a ≠ 0 :=
                  htosz a (List.mem_cons_of_mem _ (List.mem_cons_self _ _))
                simp [ha]
        · cases h
      · exact buildTable_sound rest t h

end Caseless

namespace Caseless

/-- Claim C8 counterexample: an out-of-order pair of `CaseFolding.txt` data
lines passes table construction unchanged — no assertion detects an
unsorted table at build time. -/
theorem build_unsorted_not_detected :
    buildTable ["0042; C; 0062; ".data, "0041; C; 0061; ".data] =
      some [(0x42, 0x62, 0, 0), (0x41, 0x61, 0, 0)] ∧
    tableSorted [(0x42, 0x62, 0, 0), (0x41, 0x61, 0, 0)] = false :=
  ⟨by decide, by decide⟩

/-- Claim C8 (amended): a replacement sequence of zero or of more than
`MAX_FOLDED_CODE_POINTS` code points is detected at table-construction time
(the build aborts with `none`), so every entry of a successfully built table
has a replacement sequence of length 1 to 3; sortedness, however, is NOT
checked during construction — binary-search correctness relies on the input
data file itself being sorted, as the modelled runtime table is. -/
theorem build_asserts_lengths_not_sortedness :
    (∀ (lines : List (List Char)) (t : FoldTable),
      buildTable lines = some t → t.all entryOk = true) ∧
    buildTable ["0041; C; ; ".data] = none ∧
    buildTable ["0041; C; 0061 0062 0063 0064; ".data] = none ∧
    tableSorted CASE_FOLDING_TABLE = true :=
  ⟨buildTable_sound, by decide, by decide, by decide⟩

/-- Witness for Claim C8 on a concrete well-formed data line: the built
entry satisfies the entry invariant. -/
theorem build_asserts_lengths_witness :
    List.all [(0x41, 0x61, 0, 0)] entryOk = true :=
  build_asserts_lengths_not_sortedness.1 ["0041; C; 0061; ".data]
    [(0x41, 0x61, 0, 0)] (by decide)

/-- Claim C10: the NUL sentinel never collides with real data — table
construction rejects any U+0000 code point, so a built table has no NUL in
any replacement sequence (padding slots are contiguous at the tail); U+0000
is absent from the modelled runtime table, so the fold transform emits it
unchanged in its position; and `CaseFold::next` preserves the queue
invariant that slot 1 is occupied only when slot 0 is. -/
theorem nul_sentinel_safe :
    (∀ (lines : List (List Char)) (t : FoldTable), buildTable lines = some t →
      t.all (fun e => (e.2.1 != 0) && (e.2.2.1 != 0 || e.2.2.2 == 0)) = true) ∧
    binarySearchTable CASE_FOLDING_TABLE 0 = none ∧
    (∀ xs ys : List Nat,
      caseFoldList CASE_FOLDING_TABLE (xs ++ 0 :: ys) =
        caseFoldList CASE_FOLDING_TABLE xs ++ 0 :: caseFoldList CASE_FOLDING_TABLE ys) ∧
    (∀ (s s' : CaseFold) (x : Nat), (s.queue1 ≠ 0 → s.queue0 ≠ 0) →
      CaseFold.next CASE_FOLDING_TABLE s = some (x, s') →
      (s'.queue1 ≠ 0 → s'.queue0 ≠ 0)) := by
  refine ⟨?_, by decide, ?_, ?_⟩
  · intro lines t ht
    have hall := buildTable_sound lines t ht
    rw [List.all_eq_true] at hall ⊢
    intro e he
    have := hall e he
    simp only [entryOk, Bool.and_eq_true] at this
    simp [this.1.2, this.2]
  · intro xs ys
    rw [caseFoldList_eq_flatMap, caseFoldList_eq_flatMap, caseFoldList_eq_flatMap,
      List.flatMap_append, List.flatMap_cons]
    have h0 : scalarFold CASE_FOLDING_TABLE 0 = [0] := by decide
    rw [h0]
    simp
  · intro s s' x hinv hnext
    obtain ⟨chars, q0, q1⟩ := s
    by_cases h0 : q0 = 0
    · subst h0
      cases chars with
      | nil => simp [CaseFold.next] at hnext
      | cons c rest =>
        rcases hb : binarySearchTable CASE_FOLDING_TABLE c with _ | i
        · simp only [CaseFold.next, ne_eq, not_true_eq_false, if_neg, hb] at hnext
          simp at hnext
          obtain ⟨rfl, rfl⟩ := hnext
          intro hq1
          exact absurd (hinv hq1) (by simp)
        · obtain ⟨hi, _⟩ := binarySearchTable_sound _ _ _ hb
          have hmem : CASE_FOLDING_TABLE.getD i (0, 0, 0, 0) ∈ CASE_FOLDING_TABLE := by
            rw [List.getD_eq_getElem _ _ hi]
            exact List.getElem_mem hi
          have hpad : CASE_FOLDING_TABLE.all
              (fun e => e.2.2.1 != 0 || e.2.2.2 == 0) = true := by decide
          have hent := List.all_eq_true.mp hpad _ hmem
          simp only [Bool.or_eq_true, bne_iff_ne, ne_eq, beq_iff_eq] at hent
          simp only [CaseFold.next, ne_eq, not_true_eq_false, if_neg, hb] at hnext
          simp at hnext
          obtain ⟨-, rfl⟩ := hnext
          intro hq1'
          rcases hent with hent | hent
          · simpa using hent
          · exact absurd (by simpa using hent) hq1'
    · simp only [CaseFold.next, h0, if_pos, ne_eq, not_false_eq_true] at hnext
      simp at hnext
      obtain ⟨-, rfl⟩ := hnext
      intro hq1'
      exact absurd rfl hq1'

/-- Witness for Claim C10 at concrete inputs: the single-line build output
satisfies the no-NUL invariant, and one `next` step that loads the queue
(`ß` folds to `ss`) preserves the queue invariant. -/
theorem nul_sentinel_safe_witness :
    List.all [(0x41, 0x61, 0, 0)]
      (fun e => (e.2.1 != 0) && (e.2.2.1 != 0 || e.2.2.2 == 0)) = true ∧
    ((⟨[], 0x73, 0⟩ : CaseFold).queue1 ≠ 0 → (⟨[], 0x73, 0⟩ : CaseFold).queue0 ≠ 0) :=
  ⟨nul_sentinel_safe.1 ["0041; C; 0061; ".data] [(0x41, 0x61, 0, 0)] (by decide),
    nul_sentinel_safe.2.2.2 ⟨[0xDF], 0, 0⟩ ⟨[], 0x73, 0⟩ 0x73
      (by decide) (by decide)⟩

end Caseless
